import Mathlib

/-!
Verification development for the documentation ingestion and search-indexing
pipeline of the fluxible.io repository (src/services/docs.js).

The JavaScript source is shallowly embedded: the mutable module state
(cache object, documents array, lunr index) becomes an explicit record
threaded through the functions, asynchronous callbacks become return values
of type Except, and the external transforms the pipeline merely invokes
(the marked markdown renderer and base64 decoding) are taken as opaque
function parameters, as the design document treats them as pure external
transforms. Network responses are inputs: an Except value per request.
-/

set_option autoImplicit false

namespace FluxibleDocs

/-- A tracked route from src/configs/routes (the static route table read by
src/services/docs.js). Field names follow the source: path is the site
permalink, githubPath the upstream file path (absent for non-content
routes), githubRepo the upstream repository, githubRef the per-cycle
resolved ref annotation written by refreshCacheFromGithub. -/
structure RouteConfig where
  path : String
  githubPath : Option String := none
  githubRepo : Option String := none
  pageTitle : String := ""
  pageTitlePrefix : Option String := none
  pageDescription : String := ""
  githubRef : Option String := none
deriving DecidableEq, Repr

/-- A cache entry, as stored by docs.js in the module-level cache object:
cache[githubPath] = \x7b key, content \x7d. -/
structure CacheEntry where
  key : String
  content : String
deriving DecidableEq, Repr

/-- A corpus document, as pushed onto the module-level documents array and
added to the lunr index in fetchAPI. -/
structure Document where
  id : String
  title : String
  body : String
  description : String
  permalink : String
deriving DecidableEq, Repr

/-- The mutable module state of src/services/docs.js: the cache object
(modelled as an association list), the documents array, and the lunr
index (modelled by the sequence of documents added to it; lunr index.add
only ever appends an entry, and the index is created once at module load
and never rebuilt). -/
structure DocsState where
  cache : List (String × CacheEntry) := []
  documents : List Document := []
  index : List Document := []
deriving DecidableEq, Repr

/-- Assignment cache[k] = v on a JavaScript object: replace the entry for k
if present, otherwise add it. -/
def setCache : List (String × CacheEntry) → String → CacheEntry → List (String × CacheEntry)
  | [], k, v => [(k, v)]
  | (k0, v0) :: rest, k, v =>
      if k0 = k then (k, v) :: rest else (k0, v0) :: setCache rest k v

/-- Lookup cache[k] on a JavaScript object. -/
def cacheGet : List (String × CacheEntry) → String → Option CacheEntry
  | [], _ => none
  | (k0, v0) :: rest, k => if k0 = k then some v0 else cacheGet rest k

/-! ### Character-list string utilities

docs.js manipulates the rendered output with a regular expression scan and
String.prototype.replace. These are modelled on List Char so that every
definition is structural and computable. -/

/-- Index of the first position of l at which pat occurs as a prefix of the
remaining list, if any: the position found by String.prototype.indexOf and
by the first-occurrence semantics of String.prototype.replace. -/
def firstMatchIdx : List Char → List Char → Option Nat
  | [], _ => none
  | c :: cs, pat =>
      if pat.isPrefixOf (c :: cs) then some 0
      else (firstMatchIdx cs pat).map (· + 1)

/-- Substring containment test (String.prototype.indexOf(pat) returning a
position, i.e. not -1). -/
def containsSub (l pat : List Char) : Bool :=
  (firstMatchIdx l pat).isSome

/-- Replace the first occurrence of a nonempty pat in l by rep, leaving l
unchanged when pat does not occur. -/
def replaceFirstAux : List Char → List Char → List Char → List Char
  | [], _, _ => []
  | c :: cs, pat, rep =>
      if pat.isPrefixOf (c :: cs) then rep ++ List.drop pat.length (c :: cs)
      else c :: replaceFirstAux cs pat rep

/-- JavaScript String.prototype.replace with a string pattern: replaces the
first occurrence only; an empty pattern matches at position zero. -/
def replaceFirst (l pat rep : List Char) : List Char :=
  if pat = [] then rep ++ l else replaceFirstAux l pat rep

/-- Characterization of replaceFirstAux by the position of the first
occurrence of the pattern. -/
theorem replaceFirstAux_eq (pat rep : List Char) :
    ∀ l : List Char,
      replaceFirstAux l pat rep =
        match firstMatchIdx l pat with
        | none => l
        | some i => l.take i ++ rep ++ l.drop (i + pat.length)
  | [] => rfl
  | c :: cs => by
      by_cases h : pat.isPrefixOf (c :: cs)
      · simp [replaceFirstAux, firstMatchIdx, h]
      · have ih := replaceFirstAux_eq pat rep cs
        simp only [replaceFirstAux, firstMatchIdx, h, if_neg, ite_false]
        cases hfi : firstMatchIdx cs pat with
        | none => simp [ih, hfi]
        | some i =>
            simp [ih, hfi, List.take_succ_cons, List.drop_succ_cons,
              Nat.succ_add]

/-! ### The .md link scan

fetchAPI scans the rendered output with the regular expression
/href="([^"]+\.md)"/g : a literal href=" followed by a nonempty quote-free
segment ending in .md, followed by the closing quote. The scanner below
follows the exec loop: on a successful match it resumes after the closing
quote (lastIndex), on a failed candidate it advances one character. -/

/-- Split off the characters before the first double quote, together with
the rest after that quote; none when no closing quote exists. -/
def takeUntilQuote : List Char → Option (List Char × List Char)
  | [] => none
  | c :: cs =>
      if c = '"' then some ([], cs)
      else
        match takeUntilQuote cs with
        | some (seg, rest) => some (c :: seg, rest)
        | none => none

/-- Fuel-indexed scanner; the fuel is consumed one unit per step while the
text shrinks by at least one character per step, so fuel equal to the
length of the text suffices. -/
def scanLinksAux : Nat → List Char → List (List Char)
  | 0, _ => []
  | _, [] => []
  | Nat.succ fuel, c :: cs =>
      if "href=\"".data.isPrefixOf (c :: cs) then
        match takeUntilQuote (List.drop 5 cs) with
        | some (seg, rest) =>
            if 3 < seg.length ∧ ".md".data.isSuffixOf seg then
              seg :: scanLinksAux fuel rest
            else scanLinksAux fuel cs
        | none => scanLinksAux fuel cs
      else scanLinksAux fuel cs

/-- All href targets ending in .md found in the rendered output, in scan
order, as matched by the linkRegex exec loop of fetchAPI. -/
def scanLinksC (l : List Char) : List (List Char) :=
  scanLinksAux l.length l

/-! ### url.resolve

fetchAPI resolves each matched href against the githubPath of the current
document with the Node legacy url.resolve: absolute URLs resolve to
themselves, root-relative hrefs replace the whole path, and otherwise the
href is appended to the directory of the base path with single-dot and
double-dot segments normalized. -/

def splitOnChar (sep : Char) : List Char → List (List Char)
  | [] => [[]]
  | c :: cs =>
      match splitOnChar sep cs with
      | [] => [[]]
      | seg :: rest =>
          if c = sep then [] :: seg :: rest else (c :: seg) :: rest

def joinWith (sep : Char) : List (List Char) → List Char
  | [] => []
  | [s] => s
  | s :: rest => s ++ sep :: joinWith sep rest

/-- Normalize single-dot and double-dot path segments. -/
def resolveDotSegs (segs : List (List Char)) : List (List Char) :=
  segs.foldl
    (fun acc seg =>
      if seg = ['.'] then acc
      else if seg = ['.', '.'] then
        match acc.getLast? with
        | some last => if last = ['.', '.'] then acc ++ [seg] else acc.dropLast
        | none => [seg]
      else acc ++ [seg])
    []

def urlResolveC (base href : List Char) : List Char :=
  if containsSub href "://".data then href
  else
    match href with
    | '/' :: _ => href
    | _ =>
        let baseSegs := (splitOnChar '/' base).dropLast
        joinWith '/' (resolveDotSegs (baseSegs ++ splitOnChar '/' href))

/-- Model of url.resolve(githubPath, href) as used in fetchAPI. -/
def urlResolve (base href : String) : String :=
  String.mk (urlResolveC base.data href.data)

/-! ### Route lookup and link rewriting -/

/-- The match condition of the route scan in fetchAPI: the resolved path
equals the githubPath of the candidate route, or, for links containing
http, the raw href contains the githubPath of the candidate route as a
substring. Routes without a githubPath never match. -/
def matchesRoute (fixed href : String) (rc : RouteConfig) : Bool :=
  match rc.githubPath with
  | some g =>
      (fixed == g) ||
        (containsSub href.data "http".data && containsSub href.data g.data)
  | none => false

/-- The Object.keys(routes).forEach scan of fetchAPI. The early return in
the forEach callback only ends one iteration, so a later matching route
overwrites an earlier one: the last matching route wins. -/
def resolveRoute (routes : List RouteConfig) (gp href : String) : Option RouteConfig :=
  let fixed := urlResolve gp href
  routes.foldl (fun acc rc => if matchesRoute fixed href rc then some rc else acc) none

/-- The body of the linkRegex while loop of fetchAPI: for each scanned
href, either push the pair (href, matched route path) onto the
replacements array, or log the resolved path as a broken link and
continue with the remaining matches. -/
def collectLinks (routes : List RouteConfig) (gp : String) :
    List (List Char) → List (List Char × List Char) × List String
  | [] => ([], [])
  | x :: rest =>
      let r := collectLinks routes gp rest
      match resolveRoute routes gp (String.mk x) with
      | some rc => ((x, rc.path.data) :: r.fst, r.snd)
      | none => (r.fst, urlResolve gp (String.mk x) :: r.snd)

/-- The replacements.forEach loop of fetchAPI: successive first-occurrence
string replacements applied to the rendered output. -/
def applyReplacements : List (List Char × List Char) → List Char → List Char
  | [], out => out
  | p :: rest, out => applyReplacements rest (replaceFirst out p.fst p.snd)

/-- The whole .md link rewriting pass of fetchAPI over the rendered output:
scan, match against the route table, then apply the collected replacements;
also returns the broken links logged along the way. -/
def rewriteLinksC (routes : List RouteConfig) (gp : String) (out : List Char) :
    List Char × List String :=
  let cl := collectLinks routes gp (scanLinksC out)
  (applyReplacements cl.fst out, cl.snd)

def rewriteLinks (routes : List RouteConfig) (gp : String) (out : String) :
    String × List String :=
  let r := rewriteLinksC routes gp out.data
  (String.mk r.fst, r.snd)

/-! ### fetchAPI

The fetchCallback of fetchAPI, given the response of the GitHub contents
API for the githubPath of the route. The response is modelled as an Except:
a transport error, or a body whose content field is present (the base64
markdown) or absent. The base64 decode and the marked renderer are opaque
parameters. Returns the new module state together with the value passed to
the async callback. -/
def fetchAPI (render decode : String → String) (routes : List RouteConfig)
    (docParams : RouteConfig) (res : Except String (Option String))
    (st : DocsState) : DocsState × Except String CacheEntry :=
  let githubPath := docParams.githubPath.getD ""
  let title := docParams.pageTitlePrefix.getD docParams.pageTitle
  match res with
  | Except.error e => (st, Except.error e)
  | Except.ok (some md) =>
      let output0 := render (decode md)
      let output := (rewriteLinks routes githubPath output0).fst
      let entry : CacheEntry := { key := githubPath, content := output }
      let document : Document :=
        { id := githubPath, title := title, body := output,
          description := docParams.pageDescription, permalink := docParams.path }
      ({ cache := setCache st.cache githubPath entry,
         documents := st.documents ++ [document],
         index := st.index ++ [document] },
       Except.ok entry)
  | Except.ok none =>
      let entry : CacheEntry :=
        { key := githubPath, content := render ("# Doc Not Found: " ++ githubPath) }
      ({ st with cache := setCache st.cache githubPath entry }, Except.ok entry)

/-! ### Ref resolution: fetchGitBranch

fetchGitBranch looks up the published version of a package on the npm
registry, lists the branches of the corresponding GitHub repository, and
selects a branch whose name, after stripping one leading v, is a semver
range satisfied by the published version; every satisfying branch
overwrites the previous choice, so the last satisfying branch wins, and
master is the default when none satisfies. A failed registry request and a
failed branch listing each return an Error through the callback. The two
network responses are inputs; the semver range check is a parameter where
the claims are generic and is instantiated with the model below for
concrete scenarios. -/

/-- Parse a nonempty all-digit character list as a natural number. -/
def parseNatChars (l : List Char) : Option Nat :=
  if l = [] then none
  else
    l.foldl
      (fun acc c =>
        match acc with
        | none => none
        | some n => if c.isDigit then some (n * 10 + (c.toNat - 48)) else none)
      (some 0)

/-- Parse a dotted version a.b.c with numeric components. -/
def parseVersion (l : List Char) : Option (Nat × Nat × Nat) :=
  match splitOnChar '.' l with
  | [a, b, c] =>
      match parseNatChars a, parseNatChars b, parseNatChars c with
      | some x, some y, some z => some (x, y, z)
      | _, _, _ => none
  | _ => none

/-- Model of the node-semver satisfies check, restricted to the shapes the
branch-matching loop exercises: an exact version a.b.c against x-ranges
with a wildcard minor (N.x) or wildcard patch (N.M.x) component, or an
exact version range. Any other range string (such as master) is not a
valid semver range and satisfies nothing, and a missing version satisfies
nothing. -/
def semverSatisfies (version : Option String) (range : String) : Bool :=
  match version with
  | none => false
  | some v =>
      match parseVersion v.data with
      | none => false
      | some (ma, mi, pa) =>
          match splitOnChar '.' range.data with
          | [n, ['x']] =>
              (match parseNatChars n with
               | some m => decide (ma = m)
               | none => false)
          | [n, m, ['x']] =>
              (match parseNatChars n, parseNatChars m with
               | some a, some b => decide (ma = a ∧ mi = b)
               | _, _ => false)
          | _ =>
              (match parseVersion range.data with
               | some r => decide ((ma, mi, pa) = r)
               | none => false)

/-- The branch-name normalization of the eachBranch loop: when the name
starts with v, exactly that one leading character is removed before the
range comparison. -/
def stripV (s : String) : String :=
  match s.data with
  | 'v' :: rest => String.mk rest
  | _ => s

/-- The eachBranch forEach loop: githubRef starts as master and is
overwritten by the original name of every branch whose stripped name is a
range satisfied by the published version, so the last satisfying branch in
evaluation order is returned. -/
def selectBranch (sat : Option String → String → Bool) (version : Option String)
    (branches : List String) : String :=
  branches.foldl (fun acc b => if sat version (stripV b) then b else acc) "master"

/-- fetchGitBranch, given the npm registry response (an error, or the
optional dist-tags.latest version) and the GitHub branches response (an
error, or the branch name list). -/
def fetchGitBranch (sat : Option String → String → Bool) (pkg : String)
    (registryRes : Except String (Option String))
    (branchesRes : Except String (List String)) : Except String String :=
  match registryRes with
  | Except.error _ =>
      Except.error ("npm request failed: http://registry.npmjs.org/" ++ pkg)
  | Except.ok version =>
      match branchesRes with
      | Except.error _ =>
          Except.error ("github branches failed for yahoo/" ++ pkg)
      | Except.ok branches => Except.ok (selectBranch sat version branches)

/-! ### The refresh cycle: refreshCacheFromGithub

The fetchApi task of the async.auto graph annotates every route with the
resolved ref for its repository, builds one fetch task per route with a
configured githubPath, and runs the tasks with async.parallel. Every
started task runs to completion and applies its cache and corpus effects;
the final callback receives the first error if any task failed, and the
snapshot write of \x7bdocs, index\x7d is performed only when that error is
absent. -/

/-- The ref annotation loop: routeConfig.githubRef = branchHash[githubRepo]. -/
def annotateRefs (branchHash : String → Option String) (routes : List RouteConfig) :
    List RouteConfig :=
  routes.map
    (fun rc =>
      { rc with
        githubRef :=
          match rc.githubRepo with
          | some r => branchHash r
          | none => none })

/-- One async.parallel task: routes without a githubPath are skipped (no
task was created for them); otherwise fetchAPI runs on the contents
response for the githubPath and the first error encountered is retained. -/
def fetchStep (render decode : String → String) (routes : List RouteConfig)
    (responses : String → Except String (Option String))
    (acc : DocsState × Option String) (rc : RouteConfig) : DocsState × Option String :=
  match rc.githubPath with
  | none => acc
  | some gp =>
      let r := fetchAPI render decode routes rc (responses gp) acc.fst
      (r.fst,
       acc.snd.orElse
         (fun _ =>
           match r.snd with
           | Except.error e => some e
           | Except.ok _ => none))

/-- Run the fetch tasks for a task list against the full route table. -/
def runFetchesAux (render decode : String → String) (routes : List RouteConfig)
    (responses : String → Except String (Option String)) :
    List RouteConfig → DocsState × Option String → DocsState × Option String
  | [], acc => acc
  | rc :: rest, acc =>
      runFetchesAux render decode routes responses rest
        (fetchStep render decode routes responses acc rc)

/-- All fetch tasks of one cycle: one per route of the table with a
configured githubPath, in table order. -/
def runFetches (render decode : String → String) (routes : List RouteConfig)
    (responses : String → Except String (Option String)) (st : DocsState) :
    DocsState × Option String :=
  runFetchesAux render decode routes responses routes (st, none)

/-- The npmFetchesCallback of async.parallel: on an error the callback
logs it and returns, skipping the snapshot write; otherwise the snapshot
\x7bdocs: documents, index: index.toJSON()\x7d is written. The returned
snapshot is the pair (documents, index) when written, none when skipped. -/
def refreshCycleFetch (render decode : String → String) (routes : List RouteConfig)
    (responses : String → Except String (Option String)) (st : DocsState) :
    DocsState × Option (List Document × List Document) :=
  let r := runFetches render decode routes responses st
  match r.snd with
  | some _ => (r.fst, none)
  | none => (r.fst, some (r.fst.documents, r.fst.index))

/-- One whole refreshCacheFromGithub cycle after the two fetchGitBranch
results arrive: async.auto runs the dependent fetchApi task only when both
branch resolutions succeeded; an error in either leaves the state untouched
and writes no snapshot. -/
def refreshCacheCycle (render decode : String → String) (routes : List RouteConfig)
    (fluxibleBranch fluxibleAddonsBranch : Except String String)
    (responses : String → Except String (Option String)) (st : DocsState) :
    DocsState × Option (List Document × List Document) :=
  match fluxibleBranch, fluxibleAddonsBranch with
  | Except.ok b1, Except.ok b2 =>
      let branchHash : String → Option String := fun r =>
        if r = "yahoo/fluxible" then some b1
        else if r = "yahoo/fluxible-addons-react" then some b2
        else none
      refreshCycleFetch render decode (annotateRefs branchHash routes) responses st
  | _, _ => (st, none)

/-! ### The read service -/

/-- The observable outcome of one call of the read service: either the
callback is invoked with the cached entry, or an on-demand fetchAPI call
is started (whose network request is issued but whose callback argument is
missing in the source). -/
inductive ReadOutcome where
  | callback : Option String → CacheEntry → ReadOutcome
  | fetchTriggered : String → ReadOutcome
deriving DecidableEq, Repr

/-- The read operation of the exported docs service: a present key is
returned immediately through the callback; an absent key triggers an
on-demand fetch. The second component counts the network requests issued
during the call. -/
def read (cache : List (String × CacheEntry)) (path : String) : ReadOutcome × Nat :=
  match cacheGet cache path with
  | some entry => (ReadOutcome.callback none entry, 0)
  | none => (ReadOutcome.fetchTriggered path, 1)

/-! ### Scheduling order

The immediately-invoked refreshCacheFromGithub body calls async.auto and
then, still inside the same synchronous body, calls
setTimeout(refreshCacheFromGithub, 60 * 60 * 1000). Under the JavaScript
event loop no asynchronous continuation of async.auto can run before the
synchronous body returns, so in every execution the timer for the next
cycle is armed before any fetch completes and before the persistence
attempt. The trace below embeds that ordering for a cycle whose fetches
settle n times before the persistence attempt. -/

inductive SchedEvent where
  | cycleStart : SchedEvent
  | armTimer : SchedEvent
  | fetchSettled : Nat → SchedEvent
  | persistAttempt : SchedEvent
deriving DecidableEq, Repr

/-- The synchronous body of refreshCacheFromGithub: start the async.auto
graph, then arm the one-hour timer for the next cycle. -/
def refreshBodyEvents : List SchedEvent :=
  [SchedEvent.cycleStart, SchedEvent.armTimer]

/-- The event trace of one cycle with n fetch completions: the synchronous
body first, the asynchronous completions and the persistence attempt after
it. -/
def cycleTrace (n : Nat) : List SchedEvent :=
  refreshBodyEvents ++ ((List.range n).map SchedEvent.fetchSettled
    ++ [SchedEvent.persistAttempt])

/-! ### Helper lemmas -/

theorem cacheGet_setCache_self (k : String) (v : CacheEntry) :
    ∀ c : List (String × CacheEntry), cacheGet (setCache c k v) k = some v
  | [] => by simp [setCache, cacheGet]
  | (k0, v0) :: rest => by
      by_cases h : k0 = k
      · simp [setCache, cacheGet, h]
      · simp [setCache, cacheGet, h, cacheGet_setCache_self k v rest]

theorem getLastD_cons {α : Type} (l : List α) (b acc : α) :
    ((b :: l).getLast?).getD acc = (l.getLast?).getD b := by
  cases l with
  | nil => rfl
  | cons c l =>
      rw [List.getLast?_cons_cons]
      cases hl : (c :: l).getLast? with
      | none => simp [List.getLast?_eq_none_iff] at hl
      | some x => rfl

theorem foldl_choice_eq_getLast {α : Type} (p : α → Bool) :
    ∀ (bs : List α) (acc : α),
      bs.foldl (fun a b => if p b then b else a) acc
        = ((bs.filter p).getLast?).getD acc
  | [], acc => rfl
  | b :: bs, acc => by
      by_cases h : p b
      · rw [List.filter_cons_of_pos h]
        simp only [List.foldl_cons, if_pos h]
        rw [foldl_choice_eq_getLast p bs b, getLastD_cons]
      · rw [List.filter_cons_of_neg h]
        simp only [List.foldl_cons, if_neg h]
        exact foldl_choice_eq_getLast p bs acc

theorem runFetchesAux_append (render decode : String → String)
    (routes : List RouteConfig) (responses : String → Except String (Option String)) :
    ∀ (l1 l2 : List RouteConfig) (acc : DocsState × Option String),
      runFetchesAux render decode routes responses (l1 ++ l2) acc
        = runFetchesAux render decode routes responses l2
            (runFetchesAux render decode routes responses l1 acc)
  | [], _, _ => rfl
  | rc :: l1, l2, acc => by
      simp only [List.cons_append, runFetchesAux]
      exact runFetchesAux_append render decode routes responses l1 l2 _

/-- Which routes contribute a corpus document in one cycle: those with a
configured githubPath whose contents response carries a content field. -/
def routeSuccess (responses : String → Except String (Option String))
    (rc : RouteConfig) : Bool :=
  match rc.githubPath with
  | some gp =>
      match responses gp with
      | Except.ok (some _) => true
      | _ => false
  | none => false

theorem fetchStep_documents (render decode : String → String)
    (routes : List RouteConfig) (responses : String → Except String (Option String))
    (acc : DocsState × Option String) (rc : RouteConfig) :
    ((routeSuccess responses rc = true ∧
        ∃ d : Document,
          (fetchStep render decode routes responses acc rc).fst.documents
              = acc.fst.documents ++ [d] ∧
          (fetchStep render decode routes responses acc rc).fst.index
              = acc.fst.index ++ [d] ∧
          rc.githubPath = some d.id) ∨
      (routeSuccess responses rc = false ∧
        (fetchStep render decode routes responses acc rc).fst.documents
            = acc.fst.documents ∧
        (fetchStep render decode routes responses acc rc).fst.index
            = acc.fst.index)) := by
  cases hgp : rc.githubPath with
  | none =>
      right
      simp [fetchStep, routeSuccess, hgp]
  | some gp =>
      cases hr : responses gp with
      | error e =>
          right
          simp [fetchStep, routeSuccess, hgp, hr, fetchAPI]
      | ok mo =>
          cases mo with
          | none =>
              right
              simp [fetchStep, routeSuccess, hgp, hr, fetchAPI]
          | some md =>
              left
              refine ⟨by simp [routeSuccess, hgp, hr], ?_⟩
              refine ⟨{ id := gp,
                        title := rc.pageTitlePrefix.getD rc.pageTitle,
                        body := (rewriteLinks routes gp (render (decode md))).fst,
                        description := rc.pageDescription,
                        permalink := rc.path }, ?_, ?_, by simp [hgp]⟩
              · simp [fetchStep, hgp, hr, fetchAPI]
              · simp [fetchStep, hgp, hr, fetchAPI]

theorem runFetchesAux_length (render decode : String → String)
    (routes : List RouteConfig) (responses : String → Except String (Option String)) :
    ∀ (tasks : List RouteConfig) (acc : DocsState × Option String),
      ((runFetchesAux render decode routes responses tasks acc).fst.documents.length
          = acc.fst.documents.length + (tasks.filter (routeSuccess responses)).length)
      ∧ ((runFetchesAux render decode routes responses tasks acc).fst.index.length
          = acc.fst.index.length + (tasks.filter (routeSuccess responses)).length)
  | [], acc => by simp [runFetchesAux]
  | rc :: rest, acc => by
      have ih := runFetchesAux_length render decode routes responses rest
        (fetchStep render decode routes responses acc rc)
      rcases fetchStep_documents render decode routes responses acc rc with
        ⟨hs, d, hd, hi, _⟩ | ⟨hs, hd, hi⟩
      · rw [List.filter_cons_of_pos hs]
        simp only [runFetchesAux, List.length_cons]
        rw [ih.1, ih.2, hd, hi]
        constructor <;> simp <;> omega
      · rw [List.filter_cons_of_neg (by simp [hs])]
        simp only [runFetchesAux]
        rw [ih.1, ih.2, hd, hi]
        exact ⟨rfl, rfl⟩

theorem runFetchesAux_documents_mono (render decode : String → String)
    (routes : List RouteConfig) (responses : String → Except String (Option String)) :
    ∀ (tasks : List RouteConfig) (acc : DocsState × Option String),
      ∃ tail : List Document,
        (runFetchesAux render decode routes responses tasks acc).fst.documents
          = acc.fst.documents ++ tail
  | [], acc => ⟨[], by simp [runFetchesAux]⟩
  | rc :: rest, acc => by
      obtain ⟨tail, htail⟩ := runFetchesAux_documents_mono render decode routes responses
        rest (fetchStep render decode routes responses acc rc)
      rcases fetchStep_documents render decode routes responses acc rc with
        ⟨_, d, hd, _, _⟩ | ⟨_, hd, _⟩
      · exact ⟨[d] ++ tail, by simp only [runFetchesAux]; rw [htail, hd, List.append_assoc]⟩
      · exact ⟨tail, by simp only [runFetchesAux]; rw [htail, hd]⟩

theorem runFetchesAux_corpus_origin (render decode : String → String)
    (routes : List RouteConfig) (responses : String → Except String (Option String)) :
    ∀ (tasks : List RouteConfig) (acc : DocsState × Option String),
      ∀ d : Document,
        d ∈ (runFetchesAux render decode routes responses tasks acc).fst.documents →
        d ∈ acc.fst.documents ∨
          ∃ rc : RouteConfig, rc ∈ tasks ∧ rc.githubPath = some d.id ∧
            ∃ md : String, responses d.id = Except.ok (some md)
  | [], acc => by
      intro d hd
      exact Or.inl hd
  | rc :: rest, acc => by
      intro d hd
      have ih := runFetchesAux_corpus_origin render decode routes responses rest
        (fetchStep render decode routes responses acc rc) d hd
      rcases ih with hmem | ⟨rc0, hrc0, hgp0, md0, hmd0⟩
      · rcases fetchStep_documents render decode routes responses acc rc with
          ⟨hs, d0, hd0, _, hid⟩ | ⟨_, hd0, _⟩
        · rw [hd0] at hmem
          rcases List.mem_append.mp hmem with h | h
          · exact Or.inl h
          · have hdd : d = d0 := by simpa using h
            subst hdd
            right
            refine ⟨rc, List.mem_cons_self rc rest, hid, ?_⟩
            cases hgp : rc.githubPath with
            | none => rw [hgp] at hid; cases hid
            | some gp =>
                rw [hgp] at hid
                have hgd : gp = d.id := by injection hid
                revert hs
                simp only [routeSuccess, hgp]
                cases hr : responses gp with
                | error e => intro h0; cases h0
                | ok mo =>
                    cases mo with
                    | none => intro h0; cases h0
                    | some md => intro _; exact ⟨md, by rw [← hgd]; exact hr⟩
        · rw [hd0] at hmem
          exact Or.inl hmem
      · exact Or.inr ⟨rc0, List.mem_cons_of_mem rc hrc0, hgp0, md0, hmd0⟩

theorem collectLinks_snd (routes : List RouteConfig) (gp : String) :
    ∀ links : List (List Char),
      (collectLinks routes gp links).snd
        = links.filterMap
            (fun x =>
              match resolveRoute routes gp (String.mk x) with
              | some _ => none
              | none => some (urlResolve gp (String.mk x)))
  | [] => rfl
  | x :: rest => by
      simp only [collectLinks, List.filterMap_cons]
      cases h : resolveRoute routes gp (String.mk x) with
      | some rc => simp [h, collectLinks_snd routes gp rest]
      | none => simp [h, collectLinks_snd routes gp rest]

theorem collectLinks_fst_nil (routes : List RouteConfig) (gp : String) :
    ∀ links : List (List Char),
      (∀ x ∈ links, resolveRoute routes gp (String.mk x) = none) →
      (collectLinks routes gp links).fst = []
  | [], _ => rfl
  | x :: rest, h => by
      have hx := h x (List.mem_cons_self x rest)
      simp only [collectLinks, hx]
      exact collectLinks_fst_nil routes gp rest
        (fun y hy => h y (List.mem_cons_of_mem x hy))

/-! ### Claim theorems -/

/-- Claim C4, counterexample: the claim states that fetchGitBranch returns
the default ref master without propagating an error in all three failure
cases. At the concrete input where the registry lookup fails (and likewise
where the branch listing fails), fetchGitBranch instead passes an Error to
its caller, so the claim is false as stated. -/
theorem c4_counterexample :
    (fetchGitBranch semverSatisfies "fluxible" (Except.error "connection refused")
        (Except.ok ["v1.x"])
      = Except.error "npm request failed: http://registry.npmjs.org/fluxible")
  ∧ (fetchGitBranch semverSatisfies "fluxible" (Except.error "connection refused")
        (Except.ok ["v1.x"]) ≠ Except.ok "master")
  ∧ (fetchGitBranch semverSatisfies "fluxible" (Except.ok (some "1.2.3"))
        (Except.error "rate limited")
      = Except.error "github branches failed for yahoo/fluxible") := by
  refine ⟨rfl, ?_, rfl⟩
  intro h
  exact Except.noConfusion h

/-- Claim C4, amended: only the no-matching-branch case falls back to the
fixed default ref master without an error; when no candidate branch
(after stripping one leading v) is a range satisfied by the published
version, fetchGitBranch calls back with master and no error. A failed
registry lookup or a failed branch listing instead propagates an Error to
the caller. -/
theorem c4_amended (sat : Option String → String → Bool) (pkg : String)
    (version : Option String) (branches : List String)
    (h : ∀ b ∈ branches, sat version (stripV b) = false) :
    fetchGitBranch sat pkg (Except.ok version) (Except.ok branches)
      = Except.ok "master" := by
  have hsel : selectBranch sat version branches = "master" := by
    have hfil : branches.filter (fun b => sat version (stripV b)) = [] :=
      List.filter_eq_nil_iff.mpr (by intro a ha; simp [h a ha])
    rw [show selectBranch sat version branches
          = ((branches.filter (fun b => sat version (stripV b))).getLast?).getD "master"
        from foldl_choice_eq_getLast _ branches "master", hfil]
    rfl
  simp [fetchGitBranch, hsel]

/-- Witness for c4_amended at a concrete input: the stripped branch name
master is not a valid range for version 2.3.0, so resolution falls back to
master without an error. -/
theorem c4_amended_witness :
    fetchGitBranch semverSatisfies "fluxible" (Except.ok (some "2.3.0"))
        (Except.ok ["master"]) = Except.ok "master" :=
  c4_amended semverSatisfies "fluxible" (some "2.3.0") ["master"] (by decide)

/-- Claim C5: when the contents API response body has no content field,
fetchAPI succeeds (the callback receives no error) and the cache holds,
under the githubPath of the route, a stub entry whose body is the fixed
not-found stub for that path (the text Doc Not Found: followed by the
path, as a markdown heading passed through the external renderer), so the
route remains servable from the cache. -/
theorem c5_notFoundStub (render decode : String → String) (routes : List RouteConfig)
    (docParams : RouteConfig) (st : DocsState) (gp : String)
    (h : docParams.githubPath = some gp) :
    ((fetchAPI render decode routes docParams (Except.ok none) st).snd
        = Except.ok { key := gp, content := render ("# Doc Not Found: " ++ gp) })
  ∧ (cacheGet (fetchAPI render decode routes docParams (Except.ok none) st).fst.cache gp
        = some { key := gp, content := render ("# Doc Not Found: " ++ gp) }) := by
  constructor
  · simp [fetchAPI, h]
  · simp [fetchAPI, h, cacheGet_setCache_self]

/-- Witness for c5_notFoundStub at a concrete route and path. -/
theorem c5_notFoundStub_witness :
    ((fetchAPI id id [] { path := "/x", githubPath := some "docs/x.md" }
        (Except.ok none) {}).snd
        = Except.ok { key := "docs/x.md",
                      content := id ("# Doc Not Found: " ++ "docs/x.md") })
  ∧ (cacheGet (fetchAPI id id [] { path := "/x", githubPath := some "docs/x.md" }
        (Except.ok none) {}).fst.cache "docs/x.md"
        = some { key := "docs/x.md",
                 content := id ("# Doc Not Found: " ++ "docs/x.md") }) :=
  c5_notFoundStub id id [] { path := "/x", githubPath := some "docs/x.md" }
    {} "docs/x.md" rfl

/-- Claim C8: when several candidate branches satisfy the published
version, the last satisfying branch in evaluation order wins; candidate
names are normalized by stripping exactly one leading v before the range
comparison; and in the concrete scenario of published version 2.3.0 with
branches v1.x, v2.x, master the resolution result is v2.x. -/
theorem c8_lastSatisfyingBranchWins :
    (fetchGitBranch semverSatisfies "fluxible" (Except.ok (some "2.3.0"))
        (Except.ok ["v1.x", "v2.x", "master"]) = Except.ok "v2.x")
  ∧ (∀ (sat : Option String → String → Bool) (v : Option String) (bs : List String),
      selectBranch sat v bs
        = ((bs.filter (fun b => sat v (stripV b))).getLast?).getD "master")
  ∧ (∀ l : List Char, stripV (String.mk ('v' :: l)) = String.mk l) := by
  refine ⟨rfl, ?_, ?_⟩
  · intro sat v bs
    exact foldl_choice_eq_getLast (fun b => sat v (stripV b)) bs "master"
  · intro l
    rfl

/-- Claim C9: a read of a key present in the cache invokes the callback
immediately with the cached entry and performs no network request: the
fetch counter of the call is zero. -/
theorem c9_cachedReadNoFetch (cache : List (String × CacheEntry)) (path : String)
    (e : CacheEntry) (h : cacheGet cache path = some e) :
    read cache path = (ReadOutcome.callback none e, 0) := by
  simp [read, h]

/-- Witness for c9_cachedReadNoFetch at a concrete cache and key. -/
theorem c9_cachedReadNoFetch_witness :
    read [("docs/k.md", { key := "docs/k.md", content := "body" })] "docs/k.md"
      = (ReadOutcome.callback none { key := "docs/k.md", content := "body" }, 0) :=
  c9_cachedReadNoFetch [("docs/k.md", { key := "docs/k.md", content := "body" })]
    "docs/k.md" { key := "docs/k.md", content := "body" } (by decide)

/-- Concrete route for the C1 counterexample. -/
def c1route : RouteConfig :=
  { path := "/a", githubPath := some "docs/a.md",
    githubRepo := some "yahoo/fluxible", pageTitle := "A" }

/-- Concrete responses for the C1 counterexample: unchanged upstream
content on every cycle. -/
def c1responses : String → Except String (Option String) :=
  fun _ => Except.ok (some "hello")

/-- One full refresh cycle at the concrete C1 configuration. -/
def c1cycle (st : DocsState) : DocsState × Option (List Document × List Document) :=
  refreshCacheCycle id id [c1route] (Except.ok "master") (Except.ok "master")
    c1responses st

/-- Claim C1, counterexample: with a single configured route and unchanged
upstream content, after the second refresh cycle the corpus and the index
hold two entries, not exactly one per configured route: the module-level
documents array and lunr index are never reset between cycles, so entries
accumulate, contradicting the claim. -/
theorem c1_counterexample :
    ((c1cycle (c1cycle {}).fst).fst.documents.length = 2)
  ∧ ((c1cycle (c1cycle {}).fst).fst.index.length = 2)
  ∧ ¬ ((c1cycle (c1cycle {}).fst).fst.documents.length = 1) := by
  decide

/-- Claim C1, amended: the corpus and index are accumulated, not reset:
each cycle appends exactly one corpus entry and one index entry per route
with a configured githubPath whose fetch returned content, on top of
whatever the previous cycles left. In particular only the first cycle
after process start leaves exactly one entry per successfully fetched
configured route, and repeating cycles with unchanged upstream content
duplicates every entry. -/
theorem c1_amended (render decode : String → String) (routes : List RouteConfig)
    (responses : String → Except String (Option String)) (st : DocsState) :
    ((runFetches render decode routes responses st).fst.documents.length
        = st.documents.length + (routes.filter (routeSuccess responses)).length)
  ∧ ((runFetches render decode routes responses st).fst.index.length
        = st.index.length + (routes.filter (routeSuccess responses)).length) :=
  runFetchesAux_length render decode routes responses routes (st, none)

/-- Concrete routes for the C2 counterexample. -/
def c2routeA : RouteConfig := { path := "/a", githubPath := some "a.md" }

def c2routeB : RouteConfig := { path := "/b", githubPath := some "b.md" }

/-- Concrete responses for the C2 counterexample: the first route fails
with a transport error, the second succeeds. -/
def c2responses : String → Except String (Option String) :=
  fun gp => if gp = "a.md" then Except.error "boom" else Except.ok (some "hi")

/-- Claim C2, counterexample: with two configured routes of which one
fetch fails, the other fetch still runs and its document lands in the
corpus, but the final indexing/persistence step is skipped: the
async.parallel callback receives the first error and returns after logging
it, so no snapshot is written. The claim that the persistence step is
performed after all fetches settle, rather than being skipped on the first
error, is false at this input. -/
theorem c2_counterexample :
    ((refreshCycleFetch id id [c2routeA, c2routeB] c2responses {}).snd = none)
  ∧ ((refreshCycleFetch id id [c2routeA, c2routeB] c2responses {}).fst.documents.length
      = 1) := by
  decide

/-- Claim C2, amended: a failure of one individual fetch does not abort
the other fetches: every started task applies its effects, and every route
with a configured githubPath whose response carried content contributes
its document to the corpus even when another route errored. However the
final indexing/persistence step is not a settle-all barrier: the snapshot
is written exactly when no fetch errored, and on any fetch error the write
is skipped for the whole cycle (the error is only logged). -/
theorem c2_amended (render decode : String → String) (routes : List RouteConfig)
    (responses : String → Except String (Option String)) (st : DocsState) :
    (∀ rc : RouteConfig, rc ∈ routes → ∀ (gp md : String),
        rc.githubPath = some gp → responses gp = Except.ok (some md) →
        ∃ d : Document,
          d ∈ (runFetches render decode routes responses st).fst.documents ∧
          d.id = gp)
  ∧ ((runFetches render decode routes responses st).snd = none →
      (refreshCycleFetch render decode routes responses st).snd
        = some ((runFetches render decode routes responses st).fst.documents,
                (runFetches render decode routes responses st).fst.index))
  ∧ (∀ e : String, (runFetches render decode routes responses st).snd = some e →
      (refreshCycleFetch render decode routes responses st).snd = none) := by
  refine ⟨?_, ?_, ?_⟩
  · intro rc hrc gp md hgp hmd
    obtain ⟨s, t, hst⟩ := List.append_of_mem hrc
    subst hst
    have hsplit :
        runFetches render decode (s ++ rc :: t) responses st
          = runFetchesAux render decode (s ++ rc :: t) responses t
              (fetchStep render decode (s ++ rc :: t) responses
                (runFetchesAux render decode (s ++ rc :: t) responses s (st, none)) rc) := by
      unfold runFetches
      rw [runFetchesAux_append]
      rfl
    set mid := runFetchesAux render decode (s ++ rc :: t) responses s (st, none) with hmid
    rcases fetchStep_documents render decode (s ++ rc :: t) responses mid rc with
      ⟨_, d, hd, _, hid⟩ | ⟨hs0, _, _⟩
    · obtain ⟨tail, htail⟩ := runFetchesAux_documents_mono render decode
        (s ++ rc :: t) responses t (fetchStep render decode (s ++ rc :: t) responses mid rc)
      refine ⟨d, ?_, ?_⟩
      · rw [hsplit, htail, hd]
        simp
      · rw [hgp] at hid
        injection hid with hid0
        exact hid0.symm
    · simp [routeSuccess, hgp, hmd] at hs0
  · intro h
    simp [refreshCycleFetch, h]
  · intro e he
    simp [refreshCycleFetch, he]

/-- Concrete route and responses for the C2 witness: a single route whose
fetch succeeds, so the snapshot is written. -/
def c2wroute : RouteConfig := { path := "/b", githubPath := some "b.md" }

def c2wresp : String → Except String (Option String) :=
  fun _ => Except.ok (some "hi")

/-- Witness for c2_amended: at a concrete all-success cycle the snapshot
is written with the final corpus and index. -/
theorem c2_amended_witness :
    (refreshCycleFetch id id [c2wroute] c2wresp {}).snd
      = some ((runFetches id id [c2wroute] c2wresp {}).fst.documents,
              (runFetches id id [c2wroute] c2wresp {}).fst.index) :=
  (c2_amended id id [c2wroute] c2wresp {}).2.1 (by decide)

/-- Claim C3, counterexample: in the trace of a cycle with one fetch, the
timer arming event occupies position one, immediately after the cycle
start, while the persistence attempt that settles the cycle occupies
position three: the timer is armed while the cycle is still in flight, not
after it settles, so the claim is false. -/
theorem c3_counterexample :
    ((cycleTrace 1).indexOf SchedEvent.armTimer = 1)
  ∧ ((cycleTrace 1).indexOf SchedEvent.persistAttempt = 3)
  ∧ ¬ ((cycleTrace 1).indexOf SchedEvent.persistAttempt
        < (cycleTrace 1).indexOf SchedEvent.armTimer) := by
  decide

/-- Claim C3, amended: the timer for the next cycle is armed synchronously
at the start of the current cycle, as the last step of the synchronous
refreshCacheFromGithub body, strictly before any fetch settles and before
the persistence attempt; the one-hour delay therefore runs from cycle
start, and cycles can overlap whenever a cycle outlives the interval. -/
theorem c3_amended (n : Nat) :
    ((cycleTrace n).indexOf SchedEvent.armTimer = 1)
  ∧ (∀ i : Nat, 1 < (cycleTrace n).indexOf (SchedEvent.fetchSettled i))
  ∧ (1 < (cycleTrace n).indexOf SchedEvent.persistAttempt) := by
  have htr : cycleTrace n
      = SchedEvent.cycleStart :: SchedEvent.armTimer ::
          ((List.range n).map SchedEvent.fetchSettled ++ [SchedEvent.persistAttempt]) := by
    simp [cycleTrace, refreshBodyEvents]
  refine ⟨?_, ?_, ?_⟩
  · rw [htr, List.indexOf_cons_ne _ (by intro h; cases h),
      List.indexOf_cons_self]
  · intro i
    rw [htr, List.indexOf_cons_ne _ (by intro h; cases h),
      List.indexOf_cons_ne _ (by intro h; cases h)]
    omega
  · rw [htr, List.indexOf_cons_ne _ (by intro h; cases h),
      List.indexOf_cons_ne _ (by intro h; cases h)]
    omega

/-- Claim C7: every scanned .md href whose resolved upstream path matches
no tracked route is logged as a broken link, in scan order, and
contributes no replacement; processing continues over all remaining links
of the document. In particular when no scanned link of the document is
tracked, the broken-link log lists them all and the output is returned
completely unchanged. -/
theorem c7_untrackedLinks (routes : List RouteConfig) (gp : String) (out : String) :
    ((rewriteLinks routes gp out).snd
        = (scanLinksC out.data).filterMap
            (fun x =>
              match resolveRoute routes gp (String.mk x) with
              | some _ => none
              | none => some (urlResolve gp (String.mk x))))
  ∧ ((∀ x ∈ scanLinksC out.data, resolveRoute routes gp (String.mk x) = none) →
      (rewriteLinks routes gp out).fst = out) := by
  constructor
  · exact collectLinks_snd routes gp (scanLinksC out.data)
  · intro h
    obtain ⟨l⟩ := out
    have h0 := collectLinks_fst_nil routes gp (scanLinksC (String.mk l).data) h
    simp only [rewriteLinks, rewriteLinksC]
    rw [h0]
    rfl

/-- Concrete route for the C7 witness. -/
def c7route : RouteConfig := { path := "/b", githubPath := some "docs/b.md" }

/-- Witness for c7_untrackedLinks: a document with one untracked .md link
is returned unchanged and the resolved target is logged as broken. -/
theorem c7_untrackedLinks_witness :
    ((rewriteLinks [c7route] "docs/a.md" "<a href=\"zzz.md\">y</a>").snd
        = ["docs/zzz.md"])
  ∧ ((rewriteLinks [c7route] "docs/a.md" "<a href=\"zzz.md\">y</a>").fst
        = "<a href=\"zzz.md\">y</a>") := by
  have h := c7_untrackedLinks [c7route] "docs/a.md" "<a href=\"zzz.md\">y</a>"
  exact ⟨by rw [h.1]; decide, h.2 (by decide)⟩

/-- Claim C10: a contents response without a content field produces a stub
cache entry but adds nothing to the corpus or the index, and every corpus
entry after a cycle either predates the cycle or originates from a route
with a configured githubPath whose response carried content; stub routes
are therefore servable from the cache yet absent from the search index and
from the docs array of the persisted snapshot. -/
theorem c10_stubNotIndexed (render decode : String → String) (routes : List RouteConfig)
    (docParams : RouteConfig) (responses : String → Except String (Option String))
    (st : DocsState) (gp : String)
    (h : docParams.githubPath = some gp) :
    ((fetchAPI render decode routes docParams (Except.ok none) st).fst.documents
        = st.documents)
  ∧ ((fetchAPI render decode routes docParams (Except.ok none) st).fst.index
        = st.index)
  ∧ (cacheGet (fetchAPI render decode routes docParams (Except.ok none) st).fst.cache gp
        = some { key := gp, content := render ("# Doc Not Found: " ++ gp) })
  ∧ (∀ d : Document,
      d ∈ (runFetches render decode routes responses st).fst.documents →
      d ∈ st.documents ∨
        ∃ rc : RouteConfig, rc ∈ routes ∧ rc.githubPath = some d.id ∧
          ∃ md : String, responses d.id = Except.ok (some md)) := by
  refine ⟨by simp [fetchAPI, h], by simp [fetchAPI, h],
    by simp [fetchAPI, h, cacheGet_setCache_self], ?_⟩
  intro d hd
  exact runFetchesAux_corpus_origin render decode routes responses routes (st, none) d hd

/-- Witness for c10_stubNotIndexed at a concrete route: the stub is cached
while the corpus and index stay empty. -/
theorem c10_stubNotIndexed_witness :
    ((fetchAPI id id [] { path := "/y", githubPath := some "docs/y.md" }
        (Except.ok none) {}).fst.documents = ({} : DocsState).documents)
  ∧ ((fetchAPI id id [] { path := "/y", githubPath := some "docs/y.md" }
        (Except.ok none) {}).fst.index = ({} : DocsState).index)
  ∧ (cacheGet (fetchAPI id id [] { path := "/y", githubPath := some "docs/y.md" }
        (Except.ok none) {}).fst.cache "docs/y.md"
      = some { key := "docs/y.md",
               content := id ("# Doc Not Found: " ++ "docs/y.md") }) :=
  ⟨(c10_stubNotIndexed id id [] { path := "/y", githubPath := some "docs/y.md" }
      (fun _ => Except.ok none) {} "docs/y.md" rfl).1,
   (c10_stubNotIndexed id id [] { path := "/y", githubPath := some "docs/y.md" }
      (fun _ => Except.ok none) {} "docs/y.md" rfl).2.1,
   (c10_stubNotIndexed id id [] { path := "/y", githubPath := some "docs/y.md" }
      (fun _ => Except.ok none) {} "docs/y.md" rfl).2.2.1⟩

/-- Concrete route for the C6 counterexample. -/
def c6route : RouteConfig := { path := "/b", githubPath := some "docs/b.md" }

/-- Claim C6, counterexample: document docs/a.md links to b.md, which is
the tracked route /b, but the rendered output also mentions b.md as plain
text before the link. The replacement is a first-occurrence literal
substring substitution on the whole output, so the plain-text mention
absorbs it: the rewritten output still contains the literal reference
href="b.md" at the link and does not contain the permalink in place of the
link, so the claim is false at this input. -/
theorem c6_counterexample :
    ((rewriteLinks [c6route] "docs/a.md" "see b.md <a href=\"b.md\">x</a>").fst
        = "see /b <a href=\"b.md\">x</a>")
  ∧ (containsSub ((rewriteLinks [c6route] "docs/a.md"
        "see b.md <a href=\"b.md\">x</a>").fst).data "href=\"b.md\"".data = true)
  ∧ ¬ (containsSub ((rewriteLinks [c6route] "docs/a.md"
        "see b.md <a href=\"b.md\">x</a>").fst).data "href=\"/b\"".data = true) := by
  decide

/-- Claim C6, amended: for a relative .md href resolving to tracked route
B, the pair (href text, permalink of B) is queued and applied as a
first-occurrence literal substring substitution on the rendered output;
when the first occurrence of the href text in the output is the link
occurrence itself (in particular when the href text does not occur earlier
as plain text), the link is rewritten in place to the permalink of B and
the literal .md reference disappears from the link. -/
theorem c6_amended (routes : List RouteConfig) (gp : String) (a b x : List Char)
    (B : RouteConfig)
    (hx : x ≠ [])
    (hscan : scanLinksC (a ++ ("href=\"".data ++ x ++ "\"".data) ++ b) = [x])
    (hres : resolveRoute routes gp (String.mk x) = some B)
    (hfirst : firstMatchIdx (a ++ ("href=\"".data ++ x ++ "\"".data) ++ b) x
        = some (a.length + 6)) :
    (rewriteLinksC routes gp (a ++ ("href=\"".data ++ x ++ "\"".data) ++ b)).fst
      = a ++ "href=\"".data ++ B.path.data ++ "\"".data ++ b := by
  have h6 : ("href=\"".data).length = 6 := by decide
  have h1 : (rewriteLinksC routes gp (a ++ ("href=\"".data ++ x ++ "\"".data) ++ b)).fst
      = replaceFirst (a ++ ("href=\"".data ++ x ++ "\"".data) ++ b) x B.path.data := by
    simp only [rewriteLinksC, hscan, collectLinks, hres]
    rfl
  rw [h1, replaceFirst, if_neg hx, replaceFirstAux_eq, hfirst]
  show (a ++ ("href=\"".data ++ x ++ "\"".data) ++ b).take (a.length + 6)
        ++ B.path.data
        ++ (a ++ ("href=\"".data ++ x ++ "\"".data) ++ b).drop (a.length + 6 + x.length)
      = a ++ "href=\"".data ++ B.path.data ++ "\"".data ++ b
  have hta : (a ++ ("href=\"".data ++ x ++ "\"".data) ++ b).take (a.length + 6)
      = a ++ "href=\"".data := by
    rw [show a ++ ("href=\"".data ++ x ++ "\"".data) ++ b
          = (a ++ "href=\"".data) ++ (x ++ ("\"".data ++ b)) by
        simp [List.append_assoc]]
    rw [show a.length + 6 = (a ++ "href=\"".data).length by
        simp [List.length_append, h6]]
    exact List.take_left _ _
  have hdr : (a ++ ("href=\"".data ++ x ++ "\"".data) ++ b).drop (a.length + 6 + x.length)
      = "\"".data ++ b := by
    rw [show a ++ ("href=\"".data ++ x ++ "\"".data) ++ b
          = ((a ++ "href=\"".data) ++ x) ++ ("\"".data ++ b) by
        simp [List.append_assoc]]
    rw [show a.length + 6 + x.length = ((a ++ "href=\"".data) ++ x).length by
        simp [List.length_append, h6]
        omega]
    exact List.drop_left _ _
  rw [hta, hdr]
  simp [List.append_assoc]

/-- Witness for c6_amended: with no earlier plain-text occurrence of the
href text, the tracked link is rewritten in place to the permalink. -/
theorem c6_amended_witness :
    ("b.md".data ≠ [])
  ∧ (scanLinksC ("<a ".data ++ ("href=\"".data ++ "b.md".data ++ "\"".data)
        ++ ">x</a>".data) = ["b.md".data])
  ∧ (resolveRoute [{ path := "/b", githubPath := some "docs/b.md" }] "docs/a.md"
        (String.mk "b.md".data) = some { path := "/b", githubPath := some "docs/b.md" })
  ∧ (firstMatchIdx ("<a ".data ++ ("href=\"".data ++ "b.md".data ++ "\"".data)
        ++ ">x</a>".data) "b.md".data = some ("<a ".data.length + 6))
  ∧ ((rewriteLinksC [{ path := "/b", githubPath := some "docs/b.md" }] "docs/a.md"
        ("<a ".data ++ ("href=\"".data ++ "b.md".data ++ "\"".data)
          ++ ">x</a>".data)).fst
      = "<a ".data ++ "href=\"".data ++ "/b".data ++ "\"".data ++ ">x</a>".data) := by
  refine ⟨by decide, by decide, by decide, by decide, ?_⟩
  exact c6_amended [{ path := "/b", githubPath := some "docs/b.md" }] "docs/a.md"
    "<a ".data ">x</a>".data "b.md".data { path := "/b", githubPath := some "docs/b.md" }
    (by decide) (by decide) (by decide) (by decide)

end FluxibleDocs
